import Mathlib

/-!
Verification of the `repo` command-line tool (src/main.rs): a shallow
embedding of its URI parser, directory-layout resolution and clone
orchestration, with theorems settling the specified properties.

Strings are modelled as `List Char` (the Rust code only ever slices at
byte indices of ASCII delimiters it has just found, so char-level and
byte-level slicing agree). Filesystem and subprocess effects of
`do_clone` are modelled by explicit state passing: a set of existing
paths, an oracle for subprocess exit codes, and an event trace recording
every effectful API call the Rust code makes.
-/

/-- Model of Rust `s.find(c)` followed by slicing at the found index:
returns `(before, after)` around the first occurrence of `c`, or `none`
when `c` does not occur (the `let Some(idx) = ... else` failure path). -/
def splitAtChar (c : Char) : List Char → Option (List Char × List Char)
  | [] => none
  | x :: xs =>
    if x = c then some ([], xs)
    else
      match splitAtChar c xs with
      | none => none
      | some (a, b) => some (x :: a, b)

/-- The 8-character literal `"https://"` from src/main.rs line 135. -/
def httpsLit : List Char := ['h', 't', 't', 'p', 's', ':', '/', '/']

/-- The 4-character literal `"git@"` from src/main.rs line 158. -/
def gitAtLit : List Char := ['g', 'i', 't', '@']

example : httpsLit = "https://".data := rfl
example : gitAtLit = "git@".data := rfl

/-- Embedding of `parse_uri` (src/main.rs lines 134-186). The error value
carries the original input, as the Rust error message does. In the
`https://` branch the repo is the remainder with every `/` and `.`
filtered out; in the `git@` branch the copy loop `break`s at the first
`/` or `.`, i.e. `takeWhile`. -/
def parse_uri (uri : List Char) :
    Except (List Char) (List Char × List Char × List Char) :=
  if httpsLit.isPrefixOf uri then
    match splitAtChar '/' (uri.drop 8) with
    | none => .error uri
    | some (domain, rest) =>
      match splitAtChar '/' rest with
      | none => .error uri
      | some (user, rest2) =>
        .ok (domain, user, rest2.filter (fun ch => ch != '/' && ch != '.'))
  else if gitAtLit.isPrefixOf uri then
    match splitAtChar ':' (uri.drop 4) with
    | none => .error uri
    | some (domain, rest) =>
      match splitAtChar '/' rest with
      | none => .error uri
      | some (user, rest2) =>
        .ok (domain, user, rest2.takeWhile (fun ch => ch != '/' && ch != '.'))
  else
    .error uri

example : parse_uri "https://github.com/rust-lang/rust/".data =
    .ok ("github.com".data, "rust-lang".data, "rust".data) := rfl

example : parse_uri "git@github.com:rust-lang/rust".data =
    .ok ("github.com".data, "rust-lang".data, "rust".data) := rfl

example : parse_uri "git@github.com:rust-lang/rust.git".data =
    .ok ("github.com".data, "rust-lang".data, "rust".data) := rfl

example : parse_uri "ftp://x/y/z".data = .error "ftp://x/y/z".data := rfl

/-- An absolute path, as a list of segments below the filesystem root. -/
abbrev FsPath := List String

/-- Rendering of a path for `println!("{}", p.display())` output lines
(paths in the model are valid UTF-8, so `to_str` never fails and
`from_utf8_lossy` is the identity). -/
def pathStr (p : FsPath) : String := String.intercalate "/" p

/-- Error taxonomy of the clone pipeline; each constructor corresponds to
one `anyhow!` site in src/main.rs: `parseError` is
"Could not parse uri" (carrying the input, line 138 etc.),
`homeDirUnavailable` is "Could not find user home directory" (line 115),
`alreadyExists` is "Repo already exists" (line 45), `spawnError` is a
failed `spawn()?` (lines 56, 103), `subprocessFailed` is
"Could not clone repo: Exist status" carrying the git exit status
(line 88), `linkCreationFailed` is "Could not link: Exist status"
carrying the ln exit status (line 108). -/
inductive CloneErr where
  | parseError (uri : String)
  | homeDirUnavailable
  | alreadyExists
  | spawnError
  | subprocessFailed (code : Nat)
  | linkCreationFailed (code : Nat)
deriving DecidableEq, Repr

/-- One effectful API call made by `do_clone`, in program order:
`createDirAll` is `std::fs::create_dir_all`, `printPath` is a `println!`
of a derived path by the control thread, `setCwd` is
`std::env::set_current_dir`, `spawn` is `Command::new(prog).args(args)`
with `cwdParam` recording a `current_dir(..)` launch parameter (the Rust
code never passes one, so the model always records `none` there),
`threadSpawn` is `std::thread::spawn` of a drain thread for the named
stream, `outputLine` is a subprocess output line forwarded by a drain
thread, `wait` is `child.wait()` returning the exit code, and `join`
would be a `JoinHandle::join` (the code never calls it). -/
inductive Event where
  | createDirAll (p : FsPath)
  | printPath (s : String)
  | setCwd (p : FsPath)
  | spawn (prog : String) (args : List String) (cwdParam : Option FsPath)
  | threadSpawn (stream : String)
  | outputLine (s : String)
  | wait (prog : String) (code : Nat)
  | join (stream : String)
deriving DecidableEq, Repr

/-- Whether an event is a subprocess invocation. -/
def Event.isSpawn : Event → Bool
  | .spawn _ _ _ => true
  | _ => false

/-- Whether an event is a control-thread `println!` of a derived path
(the success-path output: target directory or link path). -/
def Event.isPrintPath : Event → Bool
  | .printPath _ => true
  | _ => false

/-- Whether an event is a join of a drain thread. -/
def Event.isJoin : Event → Bool
  | .join _ => true
  | _ => false

/-- Shared shape of `repos_dir` and `projects_dir` (src/main.rs lines
114-132): resolve the home directory, join the subdirectory name,
create it only when `std::fs::metadata` says it does not exist, and
return the path. The filesystem is a list of existing paths; the
returned triple is the resolved path, the updated filesystem and the
trace of effect events. -/
def resolve_root (sub : String) (home : Option FsPath) (fs : List FsPath) :
    Except CloneErr (FsPath × List FsPath × List Event) :=
  match home with
  | none => .error .homeDirUnavailable
  | some h =>
    let dir := h ++ [sub]
    if dir ∈ fs then .ok (dir, fs, [])
    else .ok (dir, dir :: fs, [.createDirAll dir])

/-- `repos_dir` (src/main.rs lines 114-122). -/
def repos_dir (home : Option FsPath) (fs : List FsPath) :
    Except CloneErr (FsPath × List FsPath × List Event) :=
  resolve_root "repos" home fs

/-- `projects_dir` (src/main.rs lines 124-132). -/
def projects_dir (home : Option FsPath) (fs : List FsPath) :
    Except CloneErr (FsPath × List FsPath × List Event) :=
  resolve_root "projects" home fs

/-- `parse_uri` lifted to `String`, with the error mapped to the
`CloneErr` taxonomy (still carrying the original input). -/
def parseUri (uri : String) : Except CloneErr (String × String × String) :=
  match parse_uri uri.data with
  | .error _ => .error (.parseError uri)
  | .ok (d, u, r) => .ok (String.mk d, String.mk u, String.mk r)

/-- The inputs `do_clone` depends on: the resolved home directory (`none`
models `dirs::home_dir()` failing), the initially existing filesystem
paths, the caller's initial working directory, the URI argument, and the
subprocess oracle: whether each `spawn` succeeds, each child's exit code,
and the lines git writes to its two streams. -/
structure Config where
  home : Option FsPath
  fs0 : List FsPath
  cwd0 : FsPath
  uri : String
  gitSpawnOk : Bool
  gitExit : Nat
  gitOutLines : List String
  gitErrLines : List String
  lnSpawnOk : Bool
  lnExit : Nat
deriving Repr

/-- The observable outcome of one `do_clone` invocation: the result, the
event trace, the final filesystem and the calling process's final
working directory. -/
structure CloneOutcome where
  result : Except CloneErr Unit
  events : List Event
  fs : List FsPath
  cwd : FsPath
deriving Repr

/-- The tail of `do_clone` from the `git` spawn onwards (src/main.rs
lines 50-111): spawn git with piped streams, spawn the two detached
drain threads (stderr first, as in the code), wait, and on exit 0 the
clone exists on disk; then print the target path, resolve the projects
directory, print the link path, spawn `ln -s` and wait on it. Returns
the result, the events of this phase and the final filesystem. -/
def git_phase (cfg : Config) (repo : String) (targetDir : FsPath)
    (fs : List FsPath) : Except CloneErr Unit × List Event × List FsPath :=
  if cfg.gitSpawnOk = false then (.error .spawnError, [], fs)
  else
    let evs := [Event.spawn "git" ["clone", cfg.uri, repo] none,
                Event.threadSpawn "stderr", Event.threadSpawn "stdout"]
               ++ cfg.gitErrLines.map Event.outputLine
               ++ cfg.gitOutLines.map Event.outputLine
               ++ [Event.wait "git" cfg.gitExit]
    if cfg.gitExit ≠ 0 then (.error (.subprocessFailed cfg.gitExit), evs, fs)
    else
      let fs1 := targetDir :: fs
      let evs := evs ++ [Event.printPath (pathStr targetDir)]
      match projects_dir cfg.home fs1 with
      | .error e => (.error e, evs, fs1)
      | .ok (projectsDir, fs2, evp) =>
        let link := projectsDir ++ [repo]
        let evs := evs ++ evp ++ [Event.printPath (pathStr link)]
        if cfg.lnSpawnOk = false then (.error .spawnError, evs, fs2)
        else
          let evs := evs ++ [Event.spawn "ln" ["-s", pathStr targetDir, pathStr link] none,
                             Event.wait "ln" cfg.lnExit]
          if cfg.lnExit ≠ 0 then (.error (.linkCreationFailed cfg.lnExit), evs, fs2)
          else (.ok (), evs, link :: fs2)

/-- Embedding of `do_clone` (src/main.rs lines 31-112): resolve the
repos root, parse the URI, ensure the domain/user directory exists,
fail with `alreadyExists` (after printing the target path) when the
target directory exists, otherwise mutate the process working directory
to the domain/user directory and run the git phase. -/
def do_clone (cfg : Config) : CloneOutcome :=
  match repos_dir cfg.home cfg.fs0 with
  | .error e => ⟨.error e, [], cfg.fs0, cfg.cwd0⟩
  | .ok (reposDir, fs1, ev1) =>
    match parseUri cfg.uri with
    | .error e => ⟨.error e, ev1, fs1, cfg.cwd0⟩
    | .ok (domain, user, repo) =>
      let domainUserDir := reposDir ++ [domain, user]
      let (fs2, ev2) :=
        if domainUserDir ∈ fs1 then (fs1, ev1)
        else (domainUserDir :: fs1, ev1 ++ [Event.createDirAll domainUserDir])
      let targetDir := domainUserDir ++ [repo]
      if targetDir ∈ fs2 then
        ⟨.error .alreadyExists, ev2 ++ [Event.printPath (pathStr targetDir)],
         fs2, cfg.cwd0⟩
      else
        let (res, evg, fsg) := git_phase cfg repo targetDir fs2
        ⟨res, ev2 ++ [Event.setCwd domainUserDir] ++ evg, fsg, domainUserDir⟩

/-- Whether an event is a spawn carrying an explicit working-directory
launch parameter (`Command::current_dir`). -/
def Event.hasCwdParam : Event → Bool
  | .spawn _ _ (some _) => true
  | _ => false

/-- The RepositoryLocation invariant exactly as the spec states it
(section 3: "all three fields non-empty after successful parse; none
contains a path separator or a literal dot once extraction completes"),
written from the spec's words in order to compare it against what
`parse_uri` actually guarantees. -/
def specLocationInvariant (h u r : List Char) : Prop :=
  h ≠ [] ∧ u ≠ [] ∧ r ≠ [] ∧
  '/' ∉ h ∧ '.' ∉ h ∧ '/' ∉ u ∧ '.' ∉ u ∧ '/' ∉ r ∧ '.' ∉ r

instance (h u r : List Char) : Decidable (specLocationInvariant h u r) := by
  unfold specLocationInvariant; infer_instance

/-- A representative configuration: fresh filesystem, working home
directory, git and ln both available and succeeding. -/
def cfgDemo : Config :=
  { home := some ["home", "me"], fs0 := [], cwd0 := ["start"],
    uri := "https://github.com/rust-lang/rust",
    gitSpawnOk := true, gitExit := 0,
    gitOutLines := ["Cloning..."], gitErrLines := ["remote: done"],
    lnSpawnOk := true, lnExit := 0 }


/-! ## Helper lemmas about the parser primitives -/

theorem isPrefixOf_append_self (l t : List Char) :
    l.isPrefixOf (l ++ t) = true := by
  rw [ List.isPrefixOf_iff_prefix]
  exact List.prefix_append l t

theorem splitAtChar_append (c : Char) (a : List Char) (b : List Char)
    (ha : c ∉ a) : splitAtChar c (a ++ c :: b) = some (a, b) := by
  induction a with
  | nil => simp [splitAtChar]
  | cons x xs ih =>
    have hx : x ≠ c := fun h => ha (h ▸ List.mem_cons_self x xs)
    have ih' := ih (fun h => ha (List.mem_cons_of_mem x h))
    simp only [List.cons_append, splitAtChar, if_neg hx, List.append_eq, ih']

theorem splitAtChar_none_iff (c : Char) (s : List Char) :
    splitAtChar c s = none ↔ c ∉ s := by
  induction s with
  | nil => simp [splitAtChar]
  | cons x xs ih =>
    by_cases hx : x = c
    · subst hx
      simp [splitAtChar]
    · simp only [splitAtChar, if_neg hx, List.mem_cons]
      cases hs : splitAtChar c xs with
      | none =>
        have hmem : c ∉ xs := ih.mp hs
        have hcx : ¬ c = x := fun h => hx h.symm
        simp [hmem, hcx]
      | some ab =>
        obtain ⟨a, b⟩ := ab
        have hmem : c ∈ xs := by
          by_contra hm
          rw [ih.mpr hm] at hs
          exact Option.noConfusion hs
        simp [hmem]

theorem splitAtChar_some_eq (c : Char) (s : List Char) :
    ∀ a b, splitAtChar c s = some (a, b) → s = a ++ c :: b ∧ c ∉ a := by
  induction s with
  | nil => intro a b h; simp [splitAtChar] at h
  | cons x xs ih =>
    intro a b h
    by_cases hx : x = c
    · subst hx
      simp only [splitAtChar, if_pos rfl, Option.some.injEq, Prod.mk.injEq] at h
      obtain ⟨rfl, rfl⟩ := h
      simp
    · simp only [splitAtChar, if_neg hx] at h
      cases hs : splitAtChar c xs with
      | none => rw [hs] at h; exact Option.noConfusion h
      | some ab =>
        obtain ⟨a', b'⟩ := ab
        rw [hs] at h
        simp only [Option.some.injEq, Prod.mk.injEq] at h
        obtain ⟨rfl, rfl⟩ := h
        obtain ⟨hEq, hMem⟩ := ih a' b' hs
        refine ⟨by simp [hEq], ?_⟩
        simp only [List.mem_cons, not_or]
        exact ⟨fun h' => hx h'.symm, hMem⟩

theorem takeWhile_append_stop (p : Char → Bool) (l : List Char) (c : Char)
    (r : List Char) (hl : ∀ x ∈ l, p x = true) (hc : p c = false) :
    (l ++ c :: r).takeWhile p = l := by
  induction l with
  | nil => simp [List.takeWhile, hc]
  | cons x xs ih =>
    have h1 : p x = true := hl x (List.mem_cons_self x xs)
    have h2 := ih (fun y hy => hl y (List.mem_cons_of_mem x hy))
    simp [List.takeWhile_cons, h1, h2]

/-- The character predicate used for the repo field in both branches. -/
theorem repoChar_eq_true (ch : Char) :
    ((ch != '/' && ch != '.') = true) ↔ (ch ≠ '/' ∧ ch ≠ '.') := by
  simp [bne]

/-- Generic success shape of the `https://` branch. -/
theorem parse_uri_https_ok (H U rest : List Char)
    (hH : '/' ∉ H) (hU : '/' ∉ U) :
    parse_uri (httpsLit ++ (H ++ '/' :: (U ++ '/' :: rest)))
      = .ok (H, U, rest.filter (fun ch => ch != '/' && ch != '.')) := by
  have hpre : httpsLit.isPrefixOf (httpsLit ++ (H ++ '/' :: (U ++ '/' :: rest))) = true :=
    isPrefixOf_append_self _ _
  have hdrop : (httpsLit ++ (H ++ '/' :: (U ++ '/' :: rest))).drop 8
      = H ++ '/' :: (U ++ '/' :: rest) := rfl
  simp only [parse_uri, hpre, hdrop, splitAtChar_append '/' H _ hH,
    splitAtChar_append '/' U _ hU, if_true]

/-- Generic success shape of the `git@` branch. -/
theorem parse_uri_git_ok (H U rest : List Char)
    (hH : ':' ∉ H) (hU : '/' ∉ U) :
    parse_uri (gitAtLit ++ (H ++ ':' :: (U ++ '/' :: rest)))
      = .ok (H, U, rest.takeWhile (fun ch => ch != '/' && ch != '.')) := by
  have hpre1 : httpsLit.isPrefixOf (gitAtLit ++ (H ++ ':' :: (U ++ '/' :: rest))) = false := rfl
  have hpre2 : gitAtLit.isPrefixOf (gitAtLit ++ (H ++ ':' :: (U ++ '/' :: rest))) = true :=
    isPrefixOf_append_self _ _
  have hdrop : (gitAtLit ++ (H ++ ':' :: (U ++ '/' :: rest))).drop 4
      = H ++ ':' :: (U ++ '/' :: rest) := rfl
  simp only [parse_uri, hpre1, hpre2, hdrop, splitAtChar_append ':' H _ hH,
    splitAtChar_append '/' U _ hU, if_true, Bool.false_eq_true, if_false]

/-! ## Claims about the URI parser -/

/-- Claim C1: for every input `https://H/U/R` or `https://H/U/R/` with H,
U and R free of `/` and `.`, `parse_uri` returns `(H, U, R)`; and in the
HTTPS form every `/` and `.` anywhere in the remainder after the second
`/` is removed (filtered out), not truncated at. -/
theorem c1_https_parse (H U R : List Char)
    (hH : '/' ∉ H ∧ '.' ∉ H) (hU : '/' ∉ U ∧ '.' ∉ U)
    (hR : '/' ∉ R ∧ '.' ∉ R) :
    parse_uri (httpsLit ++ (H ++ '/' :: (U ++ '/' :: R))) = .ok (H, U, R) ∧
    parse_uri (httpsLit ++ (H ++ '/' :: (U ++ '/' :: (R ++ ['/'])))) = .ok (H, U, R) ∧
    ∀ rest, parse_uri (httpsLit ++ (H ++ '/' :: (U ++ '/' :: rest)))
      = .ok (H, U, rest.filter (fun ch => ch != '/' && ch != '.')) := by
  have hgen := fun rest => parse_uri_https_ok H U rest hH.1 hU.1
  have hRfull : ∀ x ∈ R, (x != '/' && x != '.') = true := by
    intro x hx
    exact (repoChar_eq_true x).mpr
      ⟨fun h => hR.1 (h ▸ hx), fun h => hR.2 (h ▸ hx)⟩
  refine ⟨?_, ?_, hgen⟩
  · rw [hgen R, List.filter_eq_self.mpr hRfull]
  · rw [hgen (R ++ ['/']), List.filter_append, List.filter_eq_self.mpr hRfull]
    simp

/-- Claim C1 witness: the theorem applied at host `host`, user `user`,
repo `repo`. -/
theorem c1_https_parse_witness :
    parse_uri (httpsLit ++ ("host".data ++ '/' :: ("user".data ++ '/' :: "repo".data)))
      = .ok ("host".data, "user".data, "repo".data) :=
  (c1_https_parse "host".data "user".data "repo".data
    (by decide) (by decide) (by decide)).1

/-- Claim C2: for every input `git@H:U/R` or `git@H:U/R.git` with H free
of `:`, U free of `/`, and R free of `/` and `.`, `parse_uri` returns
`(H, U, R)`; and in the SSH-shorthand form the repo is copied from the
remainder, the copy stopping (truncating) at the first `/` or `.`. -/
theorem c2_git_parse (H U R : List Char)
    (hH : ':' ∉ H) (hU : '/' ∉ U) (hR : '/' ∉ R ∧ '.' ∉ R) :
    parse_uri (gitAtLit ++ (H ++ ':' :: (U ++ '/' :: R))) = .ok (H, U, R) ∧
    parse_uri (gitAtLit ++ (H ++ ':' :: (U ++ '/' :: (R ++ '.' :: "git".data))))
      = .ok (H, U, R) ∧
    ∀ rest, parse_uri (gitAtLit ++ (H ++ ':' :: (U ++ '/' :: rest)))
      = .ok (H, U, rest.takeWhile (fun ch => ch != '/' && ch != '.')) := by
  have hgen := fun rest => parse_uri_git_ok H U rest hH hU
  have hRfull : ∀ x ∈ R, (x != '/' && x != '.') = true := by
    intro x hx
    exact (repoChar_eq_true x).mpr
      ⟨fun h => hR.1 (h ▸ hx), fun h => hR.2 (h ▸ hx)⟩
  refine ⟨?_, ?_, hgen⟩
  · rw [hgen R, List.takeWhile_eq_self_iff.mpr hRfull]
  · rw [hgen (R ++ '.' :: "git".data),
      takeWhile_append_stop _ R '.' "git".data hRfull (by decide)]

/-- Claim C2 witness: the theorem applied at `git@host:user/repo.git`. -/
theorem c2_git_parse_witness :
    parse_uri (gitAtLit ++ ("host".data ++ ':' :: ("user".data ++ '/' ::
      ("repo".data ++ '.' :: "git".data))))
      = .ok ("host".data, "user".data, "repo".data) :=
  (c2_git_parse "host".data "user".data "repo".data
    (by decide) (by decide) (by decide)).2.1

/-- A string beginning with `git@` does not begin with `https://`. -/
theorem git_not_https (uri : List Char)
    (h : gitAtLit.isPrefixOf uri = true) :
    httpsLit.isPrefixOf uri = false := by
  match uri with
  | [] => exact absurd h (by decide)
  | x :: rest =>
    simp only [gitAtLit, List.isPrefixOf, Bool.and_eq_true, beq_iff_eq] at h
    obtain ⟨rfl, -⟩ := h
    rfl

/-- Claim C3: any input with neither recognized prefix fails with a parse
error carrying the original input; an `https://` input whose remainder
has fewer than two `/` delimiters fails likewise; a `git@` input with no
`:` in the remainder, or with no `/` after the first `:`, fails
likewise. -/
theorem c3_parse_errors (uri : List Char) :
    (httpsLit.isPrefixOf uri = false → gitAtLit.isPrefixOf uri = false →
      parse_uri uri = .error uri) ∧
    (httpsLit.isPrefixOf uri = true → (uri.drop 8).count '/' < 2 →
      parse_uri uri = .error uri) ∧
    (gitAtLit.isPrefixOf uri = true → ':' ∉ uri.drop 4 →
      parse_uri uri = .error uri) ∧
    (∀ d rest, gitAtLit.isPrefixOf uri = true →
      splitAtChar ':' (uri.drop 4) = some (d, rest) → '/' ∉ rest →
      parse_uri uri = .error uri) := by
  refine ⟨?_, ?_, ?_, ?_⟩
  · intro h1 h2
    unfold parse_uri
    rw [if_neg (by simp [h1]), if_neg (by simp [h2])]
  · intro h1 hcount
    unfold parse_uri
    rw [if_pos h1]
    cases hs : splitAtChar '/' (uri.drop 8) with
    | none => rfl
    | some ab =>
      obtain ⟨a, b⟩ := ab
      obtain ⟨hEq, hNa⟩ := splitAtChar_some_eq '/' (uri.drop 8) a b hs
      have hb : '/' ∉ b := by
        intro hmem
        rw [hEq, List.count_append, List.count_cons_self,
          List.count_eq_zero.mpr hNa] at hcount
        have h1b : 0 < b.count '/' := List.count_pos_iff.mpr hmem
        omega
      simp [(splitAtChar_none_iff '/' b).mpr hb]
  · intro h1 h2
    unfold parse_uri
    rw [if_neg (by simp [git_not_https uri h1]), if_pos h1,
      (splitAtChar_none_iff ':' (uri.drop 4)).mpr h2]
  · intro d rest h1 hsplit hrest
    unfold parse_uri
    rw [if_neg (by simp [git_not_https uri h1]), if_pos h1, hsplit]
    simp [(splitAtChar_none_iff '/' rest).mpr hrest]

/-- Claim C3 witness: the theorem applied to `ftp://x`,
`https://onlyhost`, `git@nodelim` and `git@host:nouser`. -/
theorem c3_parse_errors_witness :
    parse_uri "ftp://x".data = .error "ftp://x".data ∧
    parse_uri "https://onlyhost".data = .error "https://onlyhost".data ∧
    parse_uri "git@nodelim".data = .error "git@nodelim".data ∧
    parse_uri "git@host:nouser".data = .error "git@host:nouser".data :=
  ⟨(c3_parse_errors "ftp://x".data).1 (by decide) (by decide),
   (c3_parse_errors "https://onlyhost".data).2.1 (by decide) (by decide),
   (c3_parse_errors "git@nodelim".data).2.2.1 (by decide) (by decide),
   (c3_parse_errors "git@host:nouser".data).2.2.2 "host".data "nouser".data
     (by decide) (by decide) (by decide)⟩

/-- Claim C4 counterexample: the spec's RepositoryLocation invariant
(all fields non-empty, no `/` or `.` in any field) fails on successful
parses: `https:///./` yields an empty host, a user equal to `.` and an
empty repo; `git@a/b:c/d` yields a host containing `/`; and even the
canonical `https://github.com/rust-lang/rust` yields a host containing
dots. -/
theorem c4_invariant_counterexample :
    parse_uri "https:///./".data = .ok ([], ['.'], []) ∧
    ¬ specLocationInvariant [] ['.'] [] ∧
    parse_uri "git@a/b:c/d".data = .ok ("a/b".data, "c".data, "d".data) ∧
    ¬ specLocationInvariant "a/b".data "c".data "d".data ∧
    parse_uri "https://github.com/rust-lang/rust".data
      = .ok ("github.com".data, "rust-lang".data, "rust".data) ∧
    ¬ specLocationInvariant "github.com".data "rust-lang".data "rust".data :=
  ⟨rfl, by decide, rfl, by decide, rfl, by decide⟩

/-- Claim C4 amended: what a successful parse actually guarantees is that
the repo field contains no `/` and no `.`, and the user field contains no
`/`; fields may be empty, host and user may contain dots, and in the SSH
form the host may even contain `/`. -/
theorem c4_invariant_amended (uri h u r : List Char)
    (hp : parse_uri uri = .ok (h, u, r)) :
    '/' ∉ r ∧ '.' ∉ r ∧ '/' ∉ u := by
  unfold parse_uri at hp
  by_cases h1 : httpsLit.isPrefixOf uri = true
  · rw [if_pos h1] at hp
    cases hs1 : splitAtChar '/' (uri.drop 8) with
    | none =>
      simp only [hs1] at hp
      exact absurd hp (by simp)
    | some ab =>
      obtain ⟨d0, rest⟩ := ab
      simp only [hs1] at hp
      cases hs2 : splitAtChar '/' rest with
      | none =>
        simp only [hs2] at hp
        exact absurd hp (by simp)
      | some ab2 =>
        obtain ⟨u0, rest2⟩ := ab2
        simp only [hs2, Except.ok.injEq, Prod.mk.injEq] at hp
        obtain ⟨rfl, rfl, rfl⟩ := hp
        refine ⟨?_, ?_, (splitAtChar_some_eq '/' rest u0 rest2 hs2).2⟩
        · intro hmem
          have h2 := (List.mem_filter.mp hmem).2
          simp at h2
        · intro hmem
          have h2 := (List.mem_filter.mp hmem).2
          simp at h2
  · rw [if_neg h1] at hp
    by_cases h2 : gitAtLit.isPrefixOf uri = true
    · rw [if_pos h2] at hp
      cases hs1 : splitAtChar ':' (uri.drop 4) with
      | none =>
        simp only [hs1] at hp
        exact absurd hp (by simp)
      | some ab =>
        obtain ⟨d0, rest⟩ := ab
        simp only [hs1] at hp
        cases hs2 : splitAtChar '/' rest with
        | none =>
          simp only [hs2] at hp
          exact absurd hp (by simp)
        | some ab2 =>
          obtain ⟨u0, rest2⟩ := ab2
          simp only [hs2, Except.ok.injEq, Prod.mk.injEq] at hp
          obtain ⟨rfl, rfl, rfl⟩ := hp
          refine ⟨?_, ?_, (splitAtChar_some_eq '/' rest u0 rest2 hs2).2⟩
          · intro hmem
            have h3 := List.mem_takeWhile_imp hmem
            simp at h3
          · intro hmem
            have h3 := List.mem_takeWhile_imp hmem
            simp at h3
    · rw [if_neg h2] at hp
      exact absurd hp (by simp)

/-- Claim C4 amended witness: the amended theorem applied at the
canonical input. -/
theorem c4_invariant_amended_witness :
    '/' ∉ "rust".data ∧ '.' ∉ "rust".data ∧ '/' ∉ "rust-lang".data :=
  c4_invariant_amended "https://github.com/rust-lang/rust".data
    "github.com".data "rust-lang".data "rust".data rfl

/-! ## Helper lemmas about the clone orchestration -/

theorem resolve_root_some (sub : String) (h : FsPath) (fs : List FsPath) :
    resolve_root sub (some h) fs =
      if h ++ [sub] ∈ fs then .ok (h ++ [sub], fs, [])
      else .ok (h ++ [sub], (h ++ [sub]) :: fs,
        [Event.createDirAll (h ++ [sub])]) := rfl

theorem append_ne_self (a b : List String) (hb : b ≠ []) : a ++ b ≠ a := by
  intro h
  have hlen := congrArg List.length h
  simp only [List.length_append] at hlen
  exact hb (List.length_eq_zero.mp (by omega))

/-- Decomposition of `do_clone` once the home directory resolves and the
URI parses: up to the existence check on the target directory, the only
effects are directory creations, and the filesystem grows by at most the
repos root and the domain/user directory. -/
theorem do_clone_prefix (cfg : Config) (home : FsPath) (d u r : String)
    (hhome : cfg.home = some home)
    (hparse : parseUri cfg.uri = .ok (d, u, r)) :
    ∃ fs2 ev2,
      (∀ e ∈ ev2, ∃ p, e = Event.createDirAll p) ∧
      (∀ p ∈ cfg.fs0, p ∈ fs2) ∧
      (∀ p ∈ fs2, p ∈ cfg.fs0 ∨ p = home ++ ["repos"] ∨
        p = (home ++ ["repos"]) ++ [d, u]) ∧
      do_clone cfg =
        (if ((home ++ ["repos"]) ++ [d, u]) ++ [r] ∈ fs2 then
          ⟨.error .alreadyExists,
           ev2 ++ [Event.printPath (pathStr (((home ++ ["repos"]) ++ [d, u]) ++ [r]))],
           fs2, cfg.cwd0⟩
        else
          ⟨(git_phase cfg r (((home ++ ["repos"]) ++ [d, u]) ++ [r]) fs2).1,
           ev2 ++ Event.setCwd ((home ++ ["repos"]) ++ [d, u]) ::
             (git_phase cfg r (((home ++ ["repos"]) ++ [d, u]) ++ [r]) fs2).2.1,
           (git_phase cfg r (((home ++ ["repos"]) ++ [d, u]) ++ [r]) fs2).2.2,
           (home ++ ["repos"]) ++ [d, u]⟩) := by
  by_cases h1 : home ++ ["repos"] ∈ cfg.fs0
  · by_cases h2 : (home ++ ["repos"]) ++ [d, u] ∈ cfg.fs0
    · refine ⟨cfg.fs0, [], by simp, fun p hp => hp, fun p hp => Or.inl hp, ?_⟩
      simp only [do_clone, repos_dir, hhome, resolve_root_some, if_pos h1,
        hparse, if_pos h2, List.nil_append]
      split <;> simp
    · refine ⟨((home ++ ["repos"]) ++ [d, u]) :: cfg.fs0,
        [Event.createDirAll ((home ++ ["repos"]) ++ [d, u])],
        by simp, fun p hp => List.mem_cons_of_mem _ hp,
        fun p hp => by
          rcases List.mem_cons.mp hp with h | h
          · exact Or.inr (Or.inr h)
          · exact Or.inl h, ?_⟩
      simp only [do_clone, repos_dir, hhome, resolve_root_some, if_pos h1,
        hparse, if_neg h2, List.nil_append]
      split <;> simp
  · by_cases h2 : (home ++ ["repos"]) ++ [d, u] ∈ (home ++ ["repos"]) :: cfg.fs0
    · refine ⟨(home ++ ["repos"]) :: cfg.fs0,
        [Event.createDirAll (home ++ ["repos"])],
        by simp, fun p hp => List.mem_cons_of_mem _ hp,
        fun p hp => by
          rcases List.mem_cons.mp hp with h | h
          · exact Or.inr (Or.inl h)
          · exact Or.inl h, ?_⟩
      simp only [do_clone, repos_dir, hhome, resolve_root_some, if_neg h1,
        hparse, if_pos h2]
      split <;> simp
    · refine ⟨((home ++ ["repos"]) ++ [d, u]) :: (home ++ ["repos"]) :: cfg.fs0,
        [Event.createDirAll (home ++ ["repos"]),
         Event.createDirAll ((home ++ ["repos"]) ++ [d, u])],
        by simp, fun p hp => List.mem_cons_of_mem _ (List.mem_cons_of_mem _ hp),
        fun p hp => by
          rcases List.mem_cons.mp hp with h | h
          · exact Or.inr (Or.inr h)
          · rcases List.mem_cons.mp h with h' | h'
            · exact Or.inr (Or.inl h')
            · exact Or.inl h', ?_⟩
      simp only [do_clone, repos_dir, hhome, resolve_root_some, if_neg h1,
        hparse, if_neg h2]
      split <;> simp

/-- When the target directory does not pre-exist, `do_clone` reaches the
working-directory change and the git phase. -/
theorem do_clone_spawn_path (cfg : Config) (home : FsPath) (d u r : String)
    (hhome : cfg.home = some home)
    (hparse : parseUri cfg.uri = .ok (d, u, r))
    (hnex : ((home ++ ["repos"]) ++ [d, u]) ++ [r] ∉ cfg.fs0) :
    ∃ fs2 ev2,
      (∀ e ∈ ev2, ∃ p, e = Event.createDirAll p) ∧
      (∀ p ∈ cfg.fs0, p ∈ fs2) ∧
      ((home ++ ["repos"]) ++ [d, u]) ++ [r] ∉ fs2 ∧
      do_clone cfg =
        ⟨(git_phase cfg r (((home ++ ["repos"]) ++ [d, u]) ++ [r]) fs2).1,
         ev2 ++ Event.setCwd ((home ++ ["repos"]) ++ [d, u]) ::
           (git_phase cfg r (((home ++ ["repos"]) ++ [d, u]) ++ [r]) fs2).2.1,
         (git_phase cfg r (((home ++ ["repos"]) ++ [d, u]) ++ [r]) fs2).2.2,
         (home ++ ["repos"]) ++ [d, u]⟩ := by
  obtain ⟨fs2, ev2, hev, hsub, hchar, heq⟩ :=
    do_clone_prefix cfg home d u r hhome hparse
  have hnt : ((home ++ ["repos"]) ++ [d, u]) ++ [r] ∉ fs2 := by
    intro hmem
    rcases hchar _ hmem with h | h | h
    · exact hnex h
    · have hlen := congrArg List.length h
      simp only [List.length_append, List.length_cons, List.length_nil] at hlen
      omega
    · exact append_ne_self ((home ++ ["repos"]) ++ [d, u]) [r] (by simp) h
  rw [if_neg hnt] at heq
  exact ⟨fs2, ev2, hev, hsub, hnt, heq⟩

/-! ## Claims about the clone orchestration -/

/-- Claim C5: when the derived target directory already exists, `do_clone`
prints the target path, fails with `alreadyExists`, performs no subprocess
invocation, and the existing target directory is still present
afterwards. -/
theorem c5_already_exists (cfg : Config) (home : FsPath) (d u r : String)
    (hhome : cfg.home = some home)
    (hparse : parseUri cfg.uri = .ok (d, u, r))
    (hex : home ++ ["repos", d, u, r] ∈ cfg.fs0) :
    (do_clone cfg).result = .error .alreadyExists ∧
    (∀ e ∈ (do_clone cfg).events, e.isSpawn = false) ∧
    Event.printPath (pathStr (home ++ ["repos", d, u, r])) ∈ (do_clone cfg).events ∧
    home ++ ["repos", d, u, r] ∈ (do_clone cfg).fs := by
  obtain ⟨fs2, ev2, hev, hsub, hchar, heq⟩ :=
    do_clone_prefix cfg home d u r hhome hparse
  have hex' : ((home ++ ["repos"]) ++ [d, u]) ++ [r] ∈ cfg.fs0 := by
    simpa [List.append_assoc] using hex
  have hmem2 : ((home ++ ["repos"]) ++ [d, u]) ++ [r] ∈ fs2 := hsub _ hex'
  rw [if_pos hmem2] at heq
  rw [heq]
  refine ⟨rfl, ?_, ?_, ?_⟩
  · intro e he
    rcases List.mem_append.mp he with h | h
    · obtain ⟨p, rfl⟩ := hev e h
      rfl
    · rcases List.mem_cons.mp h with rfl | h'
      · rfl
      · exact absurd h' (List.not_mem_nil e)
  · apply List.mem_append.mpr
    refine Or.inr ?_
    have : pathStr (((home ++ ["repos"]) ++ [d, u]) ++ [r])
        = pathStr (home ++ ["repos", d, u, r]) := by
      simp [List.append_assoc]
    rw [← this]
    exact List.mem_cons_self _ _
  · simpa [List.append_assoc] using hmem2

/-- Claim C5 witness: a configuration whose target directory pre-exists. -/
theorem c5_already_exists_witness :
    (do_clone { cfgDemo with
      fs0 := [["home", "me", "repos", "github.com", "rust-lang", "rust"]] }).result
      = .error .alreadyExists ∧
    (∀ e ∈ (do_clone { cfgDemo with
      fs0 := [["home", "me", "repos", "github.com", "rust-lang", "rust"]] }).events,
      e.isSpawn = false) ∧
    Event.printPath (pathStr (["home", "me"] ++ ["repos", "github.com", "rust-lang", "rust"]))
      ∈ (do_clone { cfgDemo with
        fs0 := [["home", "me", "repos", "github.com", "rust-lang", "rust"]] }).events ∧
    ["home", "me"] ++ ["repos", "github.com", "rust-lang", "rust"]
      ∈ (do_clone { cfgDemo with
        fs0 := [["home", "me", "repos", "github.com", "rust-lang", "rust"]] }).fs :=
  c5_already_exists
    { cfgDemo with
      fs0 := [["home", "me", "repos", "github.com", "rust-lang", "rust"]] }
    ["home", "me"] "github.com" "rust-lang" "rust" rfl rfl (by decide)

theorem resolve_root_ok (sub : String) (home : Option FsPath)
    (fs : List FsPath) (p : FsPath) (fs' : List FsPath) (ev : List Event)
    (h : resolve_root sub home fs = .ok (p, fs', ev)) :
    (∀ e ∈ ev, ∃ q, e = Event.createDirAll q) ∧ (∀ q ∈ fs, q ∈ fs') := by
  cases home with
  | none => simp [resolve_root] at h
  | some h0 =>
    rw [resolve_root_some] at h
    by_cases hin : h0 ++ [sub] ∈ fs
    · rw [if_pos hin] at h
      simp only [Except.ok.injEq, Prod.mk.injEq] at h
      obtain ⟨rfl, rfl, rfl⟩ := h
      exact ⟨by simp, fun q hq => hq⟩
    · rw [if_neg hin] at h
      simp only [Except.ok.injEq, Prod.mk.injEq] at h
      obtain ⟨rfl, rfl, rfl⟩ := h
      exact ⟨by simp, fun q hq => List.mem_cons_of_mem _ hq⟩

/-- When git fails to exit cleanly, the git phase stops with
`subprocessFailed` carrying the exit status, leaves the filesystem
untouched, and its full event list is explicit. -/
theorem git_phase_git_fail (cfg : Config) (repo : String) (t : FsPath)
    (fs : List FsPath) (hs : cfg.gitSpawnOk = true) (hx : cfg.gitExit ≠ 0) :
    git_phase cfg repo t fs =
      (.error (.subprocessFailed cfg.gitExit),
       [Event.spawn "git" ["clone", cfg.uri, repo] none,
        Event.threadSpawn "stderr", Event.threadSpawn "stdout"]
         ++ cfg.gitErrLines.map Event.outputLine
         ++ cfg.gitOutLines.map Event.outputLine
         ++ [Event.wait "git" cfg.gitExit], fs) := by
  unfold git_phase
  simp [hs, hx]

/-- Events of the git phase never include a drain-thread join, and no
spawn in it carries a working-directory launch parameter. -/
theorem git_phase_events_char (cfg : Config) (repo : String) (t : FsPath)
    (fs : List FsPath) :
    ∀ e ∈ (git_phase cfg repo t fs).2.1,
      e.isJoin = false ∧ e.hasCwdParam = false := by
  simp only [git_phase]
  split
  · simp
  · split
    · intro e he
      simp only [List.mem_cons, List.mem_append, List.mem_map,
        List.not_mem_nil, or_false] at he
      rcases he with (((rfl | rfl | rfl) | ⟨s, -, rfl⟩) | ⟨s, -, rfl⟩) | rfl <;>
        exact ⟨rfl, rfl⟩
    · split
      · intro e he
        simp only [List.mem_cons, List.mem_append, List.mem_map,
          List.not_mem_nil, or_false] at he
        rcases he with ((((rfl | rfl | rfl) | ⟨s, -, rfl⟩) | ⟨s, -, rfl⟩) | rfl) | rfl <;>
          exact ⟨rfl, rfl⟩
      · rename_i projectsDir fs2 evp hpd
        have hevp : ∀ e ∈ evp, e.isJoin = false ∧ e.hasCwdParam = false := by
          intro e he
          obtain ⟨q, rfl⟩ := (resolve_root_ok "projects" cfg.home (t :: fs)
            projectsDir fs2 evp hpd).1 e he
          exact ⟨rfl, rfl⟩
        split
        · intro e he
          simp only [List.mem_cons, List.mem_append, List.mem_map,
            List.not_mem_nil, or_false] at he
          rcases he with ((((((rfl | rfl | rfl) | ⟨s, -, rfl⟩) | ⟨s, -, rfl⟩) | rfl) | rfl) | hm) | rfl
          · exact ⟨rfl, rfl⟩
          · exact ⟨rfl, rfl⟩
          · exact ⟨rfl, rfl⟩
          · exact ⟨rfl, rfl⟩
          · exact ⟨rfl, rfl⟩
          · exact ⟨rfl, rfl⟩
          · exact ⟨rfl, rfl⟩
          · exact hevp e hm
          · exact ⟨rfl, rfl⟩
        · split <;>
          · intro e he
            simp only [List.mem_cons, List.mem_append, List.mem_map,
              List.not_mem_nil, or_false] at he
            rcases he with (((((((rfl | rfl | rfl) | ⟨s, -, rfl⟩) | ⟨s, -, rfl⟩) | rfl) | rfl) | hm) | rfl) | rfl | rfl
            · exact ⟨rfl, rfl⟩
            · exact ⟨rfl, rfl⟩
            · exact ⟨rfl, rfl⟩
            · exact ⟨rfl, rfl⟩
            · exact ⟨rfl, rfl⟩
            · exact ⟨rfl, rfl⟩
            · exact ⟨rfl, rfl⟩
            · exact hevp e hm
            · exact ⟨rfl, rfl⟩
            · exact ⟨rfl, rfl⟩
            · exact ⟨rfl, rfl⟩

/-- Whenever the git spawn succeeds, the trace of the git phase contains
the git spawn (with no working-directory parameter) and both drain-thread
spawns, stderr and stdout. -/
theorem git_phase_head_mem (cfg : Config) (repo : String) (t : FsPath)
    (fs : List FsPath) (hs : cfg.gitSpawnOk = true) :
    Event.spawn "git" ["clone", cfg.uri, repo] none ∈ (git_phase cfg repo t fs).2.1 ∧
    Event.threadSpawn "stderr" ∈ (git_phase cfg repo t fs).2.1 ∧
    Event.threadSpawn "stdout" ∈ (git_phase cfg repo t fs).2.1 := by
  simp only [git_phase, hs, Bool.true_eq_false, if_false]
  split
  · exact ⟨by simp, by simp, by simp⟩
  · split
    · exact ⟨by simp, by simp, by simp⟩
    · rename_i projectsDir fs2 evp hpd
      split
      · exact ⟨by simp, by simp, by simp⟩
      · split
        · exact ⟨by simp, by simp, by simp⟩
        · exact ⟨by simp, by simp, by simp⟩

/-- When git succeeds but `ln -s` exits non-zero, the git phase fails with
`linkCreationFailed` carrying that status, and the cloned target directory
is present in the final filesystem, which also retains every prior
path. -/
theorem git_phase_ln_fail (cfg : Config) (repo : String) (t : FsPath)
    (fs : List FsPath) (home : FsPath) (hhome : cfg.home = some home)
    (hs : cfg.gitSpawnOk = true) (hx : cfg.gitExit = 0)
    (hls : cfg.lnSpawnOk = true) (hlx : cfg.lnExit ≠ 0) :
    (git_phase cfg repo t fs).1 = .error (.linkCreationFailed cfg.lnExit) ∧
    t ∈ (git_phase cfg repo t fs).2.2 ∧
    ∀ q ∈ fs, q ∈ (git_phase cfg repo t fs).2.2 := by
  have hpd : projects_dir cfg.home (t :: fs) =
      resolve_root "projects" (some home) (t :: fs) := by
    rw [projects_dir, hhome]
  by_cases hin : home ++ ["projects"] ∈ t :: fs
  · have hpd' : projects_dir cfg.home (t :: fs) =
        .ok (home ++ ["projects"], t :: fs, []) := by
      rw [hpd, resolve_root_some, if_pos hin]
    simp only [git_phase, hs, Bool.true_eq_false, if_false, hx, hls, hlx, hpd']
    simp [hlx]
    intro q hq
    exact Or.inr hq
  · have hpd' : projects_dir cfg.home (t :: fs) =
        .ok (home ++ ["projects"], (home ++ ["projects"]) :: t :: fs,
          [Event.createDirAll (home ++ ["projects"])]) := by
      rw [hpd, resolve_root_some, if_neg hin]
    simp only [git_phase, hs, Bool.true_eq_false, if_false, hx, hls, hlx, hpd']
    simp [hlx]
    intro q hq
    exact Or.inr (Or.inr hq)

/-- Claim C6 counterexample: in a concrete successful clone run, the
calling process's working directory is mutated (it ends different from
where it started, and a `set_current_dir` call appears in the trace),
and no spawned subprocess carries a working-directory launch
parameter — contradicting the claim that the working directory is pass-
ed as a launch parameter with the caller's directory left unchanged. -/
theorem c6_cwd_counterexample :
    (do_clone cfgDemo).cwd ≠ cfgDemo.cwd0 ∧
    Event.setCwd ["home", "me", "repos", "github.com", "rust-lang"]
      ∈ (do_clone cfgDemo).events ∧
    (∀ e ∈ (do_clone cfgDemo).events, e.hasCwdParam = false) := by decide

/-- Claim C6 amended: the clone subprocess does run with the domain/user
directory as working directory, but this is achieved by mutating the
calling process's own working directory (`set_current_dir`) before the
spawn; no spawn carries a working-directory launch parameter, and the
caller's working directory is left mutated. -/
theorem c6_cwd_amended (cfg : Config) (home : FsPath) (d u r : String)
    (hhome : cfg.home = some home)
    (hparse : parseUri cfg.uri = .ok (d, u, r))
    (hnex : home ++ ["repos", d, u, r] ∉ cfg.fs0)
    (hs : cfg.gitSpawnOk = true) :
    Event.setCwd ((home ++ ["repos"]) ++ [d, u]) ∈ (do_clone cfg).events ∧
    Event.spawn "git" ["clone", cfg.uri, r] none ∈ (do_clone cfg).events ∧
    (∀ e ∈ (do_clone cfg).events, e.hasCwdParam = false) ∧
    (do_clone cfg).cwd = (home ++ ["repos"]) ++ [d, u] := by
  have hnex' : ((home ++ ["repos"]) ++ [d, u]) ++ [r] ∉ cfg.fs0 :=
    fun hm => hnex (by simpa [List.append_assoc] using hm)
  obtain ⟨fs2, ev2, hev, hsub, hnt, heq⟩ :=
    do_clone_spawn_path cfg home d u r hhome hparse hnex'
  rw [heq]
  refine ⟨?_, ?_, ?_, rfl⟩
  · exact List.mem_append.mpr (Or.inr (List.mem_cons_self _ _))
  · exact List.mem_append.mpr (Or.inr (List.mem_cons_of_mem _
      ((git_phase_head_mem cfg r _ fs2 hs).1)))
  · intro e he
    rcases List.mem_append.mp he with h | h
    · obtain ⟨p, rfl⟩ := hev e h
      rfl
    · rcases List.mem_cons.mp h with rfl | h2
      · rfl
      · exact (git_phase_events_char cfg r _ fs2 e h2).2

/-- Claim C6 amended witness: the amended theorem applied to the demo
configuration. -/
theorem c6_cwd_amended_witness :
    Event.setCwd ["home", "me", "repos", "github.com", "rust-lang"]
      ∈ (do_clone cfgDemo).events ∧
    Event.spawn "git" ["clone", cfgDemo.uri, "rust"] none
      ∈ (do_clone cfgDemo).events ∧
    (∀ e ∈ (do_clone cfgDemo).events, e.hasCwdParam = false) ∧
    (do_clone cfgDemo).cwd = ["home", "me", "repos", "github.com", "rust-lang"] :=
  c6_cwd_amended cfgDemo ["home", "me"] "github.com" "rust-lang" "rust"
    rfl rfl (by decide) rfl

/-- Claim C7 counterexample: a concrete invocation completes successfully
with both drain threads spawned and no join anywhere in its trace — the
control thread never joins the drain threads before the invocation is
considered complete. -/
theorem c7_join_counterexample :
    (do_clone cfgDemo).result = .ok () ∧
    Event.threadSpawn "stderr" ∈ (do_clone cfgDemo).events ∧
    Event.threadSpawn "stdout" ∈ (do_clone cfgDemo).events ∧
    (∀ e ∈ (do_clone cfgDemo).events, e.isJoin = false) := by
  refine ⟨rfl, by decide, by decide, by decide⟩

/-- Claim C7 amended: both drain threads are spawned (detached), and no
join of either ever occurs in the invocation's trace: the control thread
proceeds to wait on the subprocess and completes without joining them. -/
theorem c7_join_amended (cfg : Config) (home : FsPath) (d u r : String)
    (hhome : cfg.home = some home)
    (hparse : parseUri cfg.uri = .ok (d, u, r))
    (hnex : home ++ ["repos", d, u, r] ∉ cfg.fs0)
    (hs : cfg.gitSpawnOk = true) :
    Event.threadSpawn "stderr" ∈ (do_clone cfg).events ∧
    Event.threadSpawn "stdout" ∈ (do_clone cfg).events ∧
    ∀ e ∈ (do_clone cfg).events, e.isJoin = false := by
  have hnex' : ((home ++ ["repos"]) ++ [d, u]) ++ [r] ∉ cfg.fs0 :=
    fun hm => hnex (by simpa [List.append_assoc] using hm)
  obtain ⟨fs2, ev2, hev, hsub, hnt, heq⟩ :=
    do_clone_spawn_path cfg home d u r hhome hparse hnex'
  rw [heq]
  refine ⟨?_, ?_, ?_⟩
  · exact List.mem_append.mpr (Or.inr (List.mem_cons_of_mem _
      ((git_phase_head_mem cfg r _ fs2 hs).2.1)))
  · exact List.mem_append.mpr (Or.inr (List.mem_cons_of_mem _
      ((git_phase_head_mem cfg r _ fs2 hs).2.2)))
  · intro e he
    rcases List.mem_append.mp he with h | h
    · obtain ⟨p, rfl⟩ := hev e h
      rfl
    · rcases List.mem_cons.mp h with rfl | h2
      · rfl
      · exact (git_phase_events_char cfg r _ fs2 e h2).1

/-- Claim C7 amended witness: the amended theorem applied to the demo
configuration. -/
theorem c7_join_amended_witness :
    Event.threadSpawn "stderr" ∈ (do_clone cfgDemo).events ∧
    Event.threadSpawn "stdout" ∈ (do_clone cfgDemo).events ∧
    ∀ e ∈ (do_clone cfgDemo).events, e.isJoin = false :=
  c7_join_amended cfgDemo ["home", "me"] "github.com" "rust-lang" "rust"
    rfl rfl (by decide) rfl

/-- Claim C8: when the git subprocess exits with a non-zero status, the
invocation fails with `subprocessFailed` carrying that exact status, and
no success-path output (neither the target directory path nor the link
path) is printed. -/
theorem c8_subprocess_failed (cfg : Config) (home : FsPath) (d u r : String)
    (hhome : cfg.home = some home)
    (hparse : parseUri cfg.uri = .ok (d, u, r))
    (hnex : home ++ ["repos", d, u, r] ∉ cfg.fs0)
    (hs : cfg.gitSpawnOk = true) (hx : cfg.gitExit ≠ 0) :
    (do_clone cfg).result = .error (.subprocessFailed cfg.gitExit) ∧
    ∀ e ∈ (do_clone cfg).events, e.isPrintPath = false := by
  have hnex' : ((home ++ ["repos"]) ++ [d, u]) ++ [r] ∉ cfg.fs0 :=
    fun hm => hnex (by simpa [List.append_assoc] using hm)
  obtain ⟨fs2, ev2, hev, hsub, hnt, heq⟩ :=
    do_clone_spawn_path cfg home d u r hhome hparse hnex'
  have hgf := git_phase_git_fail cfg r (((home ++ ["repos"]) ++ [d, u]) ++ [r])
    fs2 hs hx
  rw [heq]
  constructor
  · show (git_phase cfg r (((home ++ ["repos"]) ++ [d, u]) ++ [r]) fs2).1
      = Except.error (CloneErr.subprocessFailed cfg.gitExit)
    rw [hgf]
  · intro e he
    rcases List.mem_append.mp he with h | h
    · obtain ⟨p, rfl⟩ := hev e h
      rfl
    · rcases List.mem_cons.mp h with rfl | h2
      · rfl
      · rw [hgf] at h2
        simp only [List.mem_cons, List.mem_append, List.mem_map,
          List.not_mem_nil, or_false] at h2
        rcases h2 with (((rfl | rfl | rfl) | ⟨s, -, rfl⟩) | ⟨s, -, rfl⟩) | rfl <;>
          rfl

/-- Claim C8 witness: the theorem applied to the demo configuration with
git exiting 128. -/
theorem c8_subprocess_failed_witness :
    (do_clone { cfgDemo with gitExit := 128 }).result
      = .error (.subprocessFailed 128) ∧
    ∀ e ∈ (do_clone { cfgDemo with gitExit := 128 }).events,
      e.isPrintPath = false :=
  c8_subprocess_failed { cfgDemo with gitExit := 128 }
    ["home", "me"] "github.com" "rust-lang" "rust"
    rfl rfl (by decide) rfl (by decide)

/-- Claim C9: when git succeeds but the `ln -s` subprocess exits non-zero,
the invocation fails with `linkCreationFailed` carrying that status, yet
the cloned target directory remains on disk, and nothing that existed
before the invocation is deleted. -/
theorem c9_link_failed (cfg : Config) (home : FsPath) (d u r : String)
    (hhome : cfg.home = some home)
    (hparse : parseUri cfg.uri = .ok (d, u, r))
    (hnex : home ++ ["repos", d, u, r] ∉ cfg.fs0)
    (hs : cfg.gitSpawnOk = true) (hx : cfg.gitExit = 0)
    (hls : cfg.lnSpawnOk = true) (hlx : cfg.lnExit ≠ 0) :
    (do_clone cfg).result = .error (.linkCreationFailed cfg.lnExit) ∧
    home ++ ["repos", d, u, r] ∈ (do_clone cfg).fs ∧
    ∀ p ∈ cfg.fs0, p ∈ (do_clone cfg).fs := by
  have hnex' : ((home ++ ["repos"]) ++ [d, u]) ++ [r] ∉ cfg.fs0 :=
    fun hm => hnex (by simpa [List.append_assoc] using hm)
  obtain ⟨fs2, ev2, hev, hsub, hnt, heq⟩ :=
    do_clone_spawn_path cfg home d u r hhome hparse hnex'
  obtain ⟨h1, h2, h3⟩ := git_phase_ln_fail cfg r
    (((home ++ ["repos"]) ++ [d, u]) ++ [r]) fs2 home hhome hs hx hls hlx
  rw [heq]
  exact ⟨h1, by simpa [List.append_assoc] using h2,
    fun p hp => h3 p (hsub p hp)⟩

/-- Claim C9 witness: the theorem applied to the demo configuration with
ln exiting 1. -/
theorem c9_link_failed_witness :
    (do_clone { cfgDemo with lnExit := 1 }).result
      = .error (.linkCreationFailed 1) ∧
    ["home", "me"] ++ ["repos", "github.com", "rust-lang", "rust"]
      ∈ (do_clone { cfgDemo with lnExit := 1 }).fs ∧
    ∀ p ∈ ({ cfgDemo with lnExit := 1 } : Config).fs0,
      p ∈ (do_clone { cfgDemo with lnExit := 1 }).fs :=
  c9_link_failed { cfgDemo with lnExit := 1 }
    ["home", "me"] "github.com" "rust-lang" "rust"
    rfl rfl (by decide) rfl rfl rfl (by decide)

/-- Claim C10: `resolve_root` is idempotent: whenever a call succeeds, a
second call with the same subdirectory name succeeds, returns the same
path, changes nothing and creates nothing; and a pre-existing directory
is not an error: the call returns at once without creating anything. -/
theorem c10_resolve_root_idempotent (sub : String) (home : Option FsPath)
    (fs : List FsPath) :
    (∀ p fs1 ev, resolve_root sub home fs = .ok (p, fs1, ev) →
      resolve_root sub home fs1 = .ok (p, fs1, [])) ∧
    (∀ h0, home = some h0 → h0 ++ [sub] ∈ fs →
      resolve_root sub home fs = .ok (h0 ++ [sub], fs, [])) := by
  constructor
  · intro p fs1 ev h
    cases home with
    | none => simp [resolve_root] at h
    | some h0 =>
      rw [resolve_root_some] at h
      by_cases hin : h0 ++ [sub] ∈ fs
      · rw [if_pos hin] at h
        simp only [Except.ok.injEq, Prod.mk.injEq] at h
        obtain ⟨rfl, rfl, rfl⟩ := h
        rw [resolve_root_some, if_pos hin]
      · rw [if_neg hin] at h
        simp only [Except.ok.injEq, Prod.mk.injEq] at h
        obtain ⟨rfl, rfl, rfl⟩ := h
        rw [resolve_root_some, if_pos (List.mem_cons_self _ _)]
  · intro h0 hh hin
    subst hh
    rw [resolve_root_some, if_pos hin]

/-- Claim C10 witness: the first call on an empty filesystem creates
`home/repos`; the second call, applied through the theorem, succeeds with
the same path and no further creation. -/
theorem c10_resolve_root_idempotent_witness :
    resolve_root "repos" (some ["home"]) [["home", "repos"]]
      = .ok (["home", "repos"], [["home", "repos"]], []) :=
  (c10_resolve_root_idempotent "repos" (some ["home"]) []).1
    ["home", "repos"] [["home", "repos"]]
    [Event.createDirAll ["home", "repos"]] rfl
